import Mathlib

/-!
Shallow embedding of the crowd-monitoring server's core logic
(`src/utils/crowdHelper.js`, the `/crowd_data` router of
`src/router/crowd_data.js`, and the schema of `src/init.sql`), together
with theorems settling the specification claims about it.
-/

set_option maxRecDepth 4000

namespace CrowdServer

/-! ## Severity classification (`getStatus`) -/

/-- Severity labels, mirroring the string enum `safe | normal | warning |
danger` used by `getStatus` and the `crowd_data.status` column. -/
inductive Status where
  | safe
  | normal
  | warning
  | danger
deriving DecidableEq, BEq

/-- A threshold record as read from the `threshold` table (or an arbitrary
JS object passed to `getStatus`): every field may be absent.  The
`safe_count` field models the extra fallback `t.safe ?? t.safe_count` in
the source. -/
structure Threshold where
  safe : Option Int := none
  safe_count : Option Int := none
  normal : Option Int := none
  warning : Option Int := none
  danger : Option Int := none
deriving DecidableEq

/-- Embedding of `getStatus(headcount, threshold)` from
`src/utils/crowdHelper.js` lines 29-40.  `none` for the `threshold`
argument models a nullish JS argument, handled by `threshold || {}`;
`Option.getD` models the `??` default chains.  The resolved `safe`
value is computed by the source but never consulted by the
classification chain, exactly as in the source. -/
def getStatus (headcount : Int) (threshold : Option Threshold) : Status :=
  let t := threshold.getD {}
  let safe := ((t.safe).orElse (fun _ => t.safe_count)).getD 30
  let normal := (t.normal).getD 50
  let warning := (t.warning).getD 80
  let danger := (t.danger).getD 120
  if headcount ≥ danger then .danger
  else if headcount ≥ warning then .warning
  else if headcount ≥ normal then .normal
  else
    let _ := safe
    .safe

/-- Embedding of `clampPrediction(v) = (v < 0 ? 0 : Math.round(v))`,
`src/utils/crowdHelper.js` line 42.  Every call site passes the integer
`curr + delta`, on which `Math.round` is the identity, so the function is
modelled on `Int`. -/
def clampPrediction (v : Int) : Int := if v < 0 then 0 else v

/-- The per-participant prediction expression of the ingest handler
(`src/router/crowd_data.js` lines 265-268):
`delta = curr - prev; predicted = clampPrediction(curr + delta)`,
where `curr` and `prev` are non-negative distinct counts. -/
def predictedFor (curr prev : Nat) : Int :=
  clampPrediction ((curr : Int) + ((curr : Int) - (prev : Int)))

/-! ## Mobility similarity (`analyzeMobility`) -/

/-- Result record of `analyzeMobility`. -/
structure MobilityResult where
  jaccard : ℚ
  mobility : ℚ
  intersection : Finset String
  union : Finset String

/-- Embedding of `analyzeMobility(listA, listB)` from
`src/utils/crowdHelper.js` lines 44-59.  JS `Set`s built from the two
lists become `Finset`s; `[...setA].filter(x => setB.has(x))` is the
filter below; division of the two sizes is modelled exactly in `ℚ`
(the claims touching this function depend only on the sizes involved,
which are identical integers under either exact or floating division). -/
def analyzeMobility (listA listB : List String) : MobilityResult :=
  let setA := listA.toFinset
  let setB := listB.toFinset
  let inter := setA.filter (fun x => x ∈ setB)
  let uni := setA ∪ setB
  if uni.card = 0 then
    { jaccard := 1, mobility := 0, intersection := inter, union := uni }
  else
    let jaccard : ℚ := (inter.card : ℚ) / (uni.card : ℚ)
    { jaccard := jaccard, mobility := 1 - jaccard, intersection := inter, union := uni }

/-! ## Identity redaction (`hashMac`)

`hashMac(mac) = crypto.createHash('sha256').update(mac).digest()`
(`src/utils/crowdHelper.js` lines 25-27).  Node's sha256 over the UTF-8
bytes of the string is embedded as a full SHA-256 implementation; the
32-byte digest is read as a big-endian natural number (a bijective
encoding of the byte string). -/

/-- Word modulus of SHA-256: all word arithmetic is modulo `2^32`. -/
def M32 : Nat := 4294967296

/-- Rotate a 32-bit word right by `n` positions. -/
def rotr (n x : Nat) : Nat := ((x >>> n) ||| (x <<< (32 - n))) % M32

/-- SHA-256 choice function `Ch(x,y,z) = (x ∧ y) ⊕ (¬x ∧ z)`;
the complement is taken within 32 bits. -/
def shaCh (x y z : Nat) : Nat := (x &&& y) ^^^ ((x ^^^ (M32 - 1)) &&& z)

/-- SHA-256 majority function. -/
def shaMaj (x y z : Nat) : Nat := (x &&& y) ^^^ (x &&& z) ^^^ (y &&& z)

/-- SHA-256 Σ0. -/
def bigSigma0 (x : Nat) : Nat := rotr 2 x ^^^ rotr 13 x ^^^ rotr 22 x

/-- SHA-256 Σ1. -/
def bigSigma1 (x : Nat) : Nat := rotr 6 x ^^^ rotr 11 x ^^^ rotr 25 x

/-- SHA-256 σ0. -/
def smallSigma0 (x : Nat) : Nat := rotr 7 x ^^^ rotr 18 x ^^^ (x >>> 3)

/-- SHA-256 σ1. -/
def smallSigma1 (x : Nat) : Nat := rotr 17 x ^^^ rotr 19 x ^^^ (x >>> 10)

/-- Round constants of the SHA-256 compression function (the first 32
fractional bits of the cube roots of the first 64 primes), written in
decimal. -/
def shaK : List Nat :=
  [1116352408, 1899447441, 3049323471, 3921009573, 961987163,
   1508970993, 2453635748, 2870763221, 3624381080, 310598401,
   607225278, 1426881987, 1925078388, 2162078206, 2614888103,
   3248222580, 3835390401, 4022224774, 264347078, 604807628,
   770255983, 1249150122, 1555081692, 1996064986, 2554220882,
   2821834349, 2952996808, 3210313671, 3336571891, 3584528711,
   113926993, 338241895, 666307205, 773529912, 1294757372,
   1396182291, 1695183700, 1986661051, 2177026350, 2456956037,
   2730485921, 2820302411, 3259730800, 3345764771, 3516065817,
   3600352804, 4094571909, 275423344, 430227734, 506948616,
   659060556, 883997877, 958139571, 1322822218, 1537002063,
   1747873779, 1955562222, 2024104815, 2227730452, 2361852424,
   2428436474, 2756734187, 3204031479, 3329325298]

/-- The eight SHA-256 working variables / hash state words. -/
structure Hash8 where
  a : Nat
  b : Nat
  c : Nat
  d : Nat
  e : Nat
  f : Nat
  g : Nat
  h : Nat
deriving DecidableEq

/-- Initial hash state of SHA-256 (square-root derived constants of
FIPS 180-4), written in decimal. -/
def shaInit : Hash8 :=
  ⟨1779033703,
   3144134277,
   1013904242,
   2773480762,
   1359893119,
   2600822924,
   528734635,
   1541459225⟩

/-- Big-endian 4-byte grouping of a block into 32-bit words. -/
def bytesToWords : List Nat → List Nat
  | b0 :: b1 :: b2 :: b3 :: rest => (((b0 * 256 + b1) * 256 + b2) * 256 + b3) :: bytesToWords rest
  | _ => []

/-- Sliding window of the 16 most recent message-schedule words
(`w0` is `w[i-16]`, `w15` is `w[i-1]`). -/
structure W16 where
  w0 : Nat
  w1 : Nat
  w2 : Nat
  w3 : Nat
  w4 : Nat
  w5 : Nat
  w6 : Nat
  w7 : Nat
  w8 : Nat
  w9 : Nat
  w10 : Nat
  w11 : Nat
  w12 : Nat
  w13 : Nat
  w14 : Nat
  w15 : Nat
deriving DecidableEq

/-- Load the first 16 words of a block into a schedule window. -/
def w16OfList : List Nat → W16
  | a0 :: a1 :: a2 :: a3 :: a4 :: a5 :: a6 :: a7 :: a8 :: a9 :: a10 :: a11 :: a12 :: a13 :: a14 :: a15 :: _ =>
    ⟨a0, a1, a2, a3, a4, a5, a6, a7, a8, a9, a10, a11, a12, a13, a14, a15⟩
  | _ => ⟨0, 0, 0, 0, 0, 0, 0, 0, 0, 0, 0, 0, 0, 0, 0, 0⟩

/-- Shift the schedule window by one freshly produced word. -/
def w16Shift (w : W16) (next : Nat) : W16 :=
  ⟨w.w1, w.w2, w.w3, w.w4, w.w5, w.w6, w.w7, w.w8, w.w9, w.w10, w.w11, w.w12, w.w13, w.w14, w.w15, next⟩

/-- Produce the next `n` message-schedule words:
`w[i] = σ1(w[i-2]) + w[i-7] + σ0(w[i-15]) + w[i-16] (mod 2^32)`. -/
def scheduleFrom : Nat → W16 → List Nat
  | 0, _ => []
  | n + 1, win =>
    let next := (smallSigma1 win.w14 + win.w9 + smallSigma0 win.w1 + win.w0) % M32
    next :: scheduleFrom n (w16Shift win next)

/-- The full 64-word message schedule of one block. -/
def schedule (w16 : List Nat) : List Nat :=
  w16 ++ scheduleFrom 48 (w16OfList w16)

/-- One SHA-256 round. -/
def roundStep (st : Hash8) (kw : Nat × Nat) : Hash8 :=
  let t1 := (st.h + bigSigma1 st.e + shaCh st.e st.f st.g + kw.1 + kw.2) % M32
  let t2 := (bigSigma0 st.a + shaMaj st.a st.b st.c) % M32
  ⟨(t1 + t2) % M32, st.a, st.b, st.c, (st.d + t1) % M32, st.e, st.f, st.g⟩

/-- SHA-256 compression of one 64-byte block into the running state. -/
def compress (st : Hash8) (block : List Nat) : Hash8 :=
  let ws := schedule (bytesToWords block)
  let fin := (shaK.zip ws).foldl roundStep st
  ⟨(st.a + fin.a) % M32, (st.b + fin.b) % M32, (st.c + fin.c) % M32, (st.d + fin.d) % M32,
   (st.e + fin.e) % M32, (st.f + fin.f) % M32, (st.g + fin.g) % M32, (st.h + fin.h) % M32⟩

/-- Big-endian byte expansion of a number into a fixed width. -/
def toBytesBE : Nat → Nat → List Nat
  | 0, _ => []
  | n + 1, v => toBytesBE n (v / 256) ++ [v % 256]

/-- SHA-256 padding: `0x80`, zeros to 56 mod 64, then the 8-byte
big-endian bit length. -/
def shaPad (msg : List Nat) : List Nat :=
  msg ++ [0x80] ++ List.replicate ((119 - msg.length % 64) % 64) 0 ++ toBytesBE 8 (msg.length * 8)

/-- Split a padded message into 64-byte blocks.  The list length is a
structurally decreasing fuel so that the definition reduces by iota
(each step consumes at least one byte). -/
def toBlocksAux : Nat → List Nat → List (List Nat)
  | 0, _ => []
  | _, [] => []
  | fuel + 1, b :: rest => (b :: rest).take 64 :: toBlocksAux fuel ((b :: rest).drop 64)

/-- Split a padded message into 64-byte blocks. -/
def toBlocks (l : List Nat) : List (List Nat) := toBlocksAux l.length l

/-- Read the final state as the digest: 32 bytes big-endian, i.e. eight
32-bit words assembled big-endian into one natural number. -/
def digestNat (st : Hash8) : Nat :=
  (((((((st.a % M32) * M32 + st.b % M32) * M32 + st.c % M32) * M32 + st.d % M32) * M32
    + st.e % M32) * M32 + st.f % M32) * M32 + st.g % M32) * M32 + st.h % M32

/-- SHA-256 of a byte string, as a 256-bit natural number. -/
def sha256Bytes (msg : List Nat) : Nat :=
  digestNat ((toBlocks (shaPad msg)).foldl compress shaInit)

/-- UTF-8 encoding of one character. -/
def charBytes (c : Char) : List Nat :=
  let n := c.toNat
  if n < 0x80 then [n]
  else if n < 0x800 then [0xc0 + n / 64, 0x80 + n % 64]
  else if n < 0x10000 then [0xe0 + n / 4096, 0x80 + (n / 64) % 64, 0x80 + n % 64]
  else [0xf0 + n / 262144, 0x80 + (n / 4096) % 64, 0x80 + (n / 64) % 64, 0x80 + n % 64]

/-- UTF-8 byte sequence of a string (what `hash.update(mac)` consumes). -/
def stringBytes (s : String) : List Nat := (s.data.map charBytes).flatten

/-- Embedding of `hashMac` (`src/utils/crowdHelper.js` lines 25-27). -/
def hashMac (mac : String) : Nat := sha256Bytes (stringBytes mac)

/-! ## Storage model

Rows of the tables the ingest handler reads and writes
(`src/init.sql`), restricted to the columns the embedded logic
consults.  Timestamps are integer seconds; `NOW()` of the single
transaction is the `now` parameter threaded through. -/

/-- A `tracked_devices` row: `id` and the unique `mac_hash`. -/
structure TrackedRow where
  id : Nat
  macHash : Nat
deriving DecidableEq

/-- A `device_observations` row: `(tracked_device_id, device_id, observed_at)`. -/
structure ObsRow where
  trackedId : Nat
  deviceId : Nat
  observedAt : Int
deriving DecidableEq

/-- An `alerts` row, restricted to the columns with algorithmic content:
the device and the triggering severity level (the source also stores a
crowd-data id, the fixed type `'density'` and a message string). -/
structure AlertRow where
  deviceId : Nat
  level : Status
deriving DecidableEq

/-- The database state the ingest handler touches: `tracked_devices`,
`device_observations`, `alerts` and the (read-only) `device_neighbors`
rows, plus the auto-increment counter of `tracked_devices`. -/
structure Store where
  tracked : List TrackedRow
  obs : List ObsRow
  alerts : List AlertRow
  neighbors : List (Nat × Nat)
  nextTrackedId : Nat
deriving DecidableEq

/-- One value of the bulk
`INSERT INTO tracked_devices ... ON DUPLICATE KEY UPDATE last_seen ...`
(`crowd_data.js` lines 166-170): a row whose `mac_hash` already exists is
left in place (only `last_seen`, which the logic never reads, changes);
otherwise a fresh row is appended. -/
def insertTracked (st : Store) (h : Nat) : Store :=
  if st.tracked.any (fun r => r.macHash == h) then st
  else { st with tracked := st.tracked ++ [⟨st.nextTrackedId, h⟩],
                 nextTrackedId := st.nextTrackedId + 1 }

/-- The bulk insert over the whole batch of mac hashes, processed in
order as MySQL processes the VALUES list. -/
def insertTrackedBulk (st : Store) (hashes : List Nat) : Store :=
  hashes.foldl insertTracked st

/-- Step 2 of the handler (`crowd_data.js` lines 172-177): per hash,
`SELECT id FROM tracked_devices WHERE mac_hash = ?` and push the first
row's id when present.  A hash occurring twice in the batch pushes its
id twice. -/
def lookupTrackedIds (st : Store) (hashes : List Nat) : List Nat :=
  hashes.filterMap (fun h => (st.tracked.find? (fun r => r.macHash == h)).map (fun r => r.id))

/-- The WHERE clause of `getCounts(startOffsetSec, endOffsetSec)`
(`crowd_data.js` lines 246-255):
`observed_at >= DATE_SUB(NOW(), startOff SECOND)` and, only when
`endOffsetSec > 0`, `observed_at < DATE_SUB(NOW(), endOff SECOND)`. -/
def windowPred (now : Int) (startOff endOff : Nat) (t : Int) : Bool :=
  (now - (startOff : Int) ≤ t) && (if 0 < endOff then t < now - (endOff : Int) else true)

/-- The distinct `tracked_device_id`s a `COUNT(DISTINCT ...)` query sees
for one device over one window. -/
def windowTokenIds (st : Store) (dev : Nat) (now : Int) (startOff endOff : Nat) : List Nat :=
  ((st.obs.filter (fun o => o.deviceId == dev && windowPred now startOff endOff o.observedAt)).map
    (fun o => o.trackedId)).dedup

/-- Embedding of `COUNT(DISTINCT tracked_device_id)` for one device over one window
(`crowd_data.js` lines 195-199 and 246-255; a device with no matching
rows simply gets count 0, as does `Number(map.get(id) || 0)`). -/
def distinctCount (st : Store) (dev : Nat) (now : Int) (startOff endOff : Nat) : Nat :=
  (windowTokenIds st dev now startOff endOff).length

/-- Embedding of `SELECT neighbor_device_id FROM device_neighbors WHERE device_id = ?`
(`crowd_data.js` lines 241-242). -/
def neighborIdsOf (st : Store) (dev : Nat) : List Nat :=
  (st.neighbors.filter (fun p => p.1 == dev)).map (fun p => p.2)

/-- The alert guard of line 210: `status === 'warning' || status === 'danger'`. -/
def alertCondition (status : Status) : Bool :=
  status == .warning || status == .danger

/-- One element of the `neighbors` array of the response
(`crowd_data.js` lines 264-279), restricted to the numeric fields
(`device_name` / `location` are display-only joins). -/
structure NeighborEntry where
  device_id : Nat
  current : Nat
  previous : Nat
  predicted : Int
deriving DecidableEq

/-- The response payload of the ingest handler (line 283-289). -/
structure IngestResponse where
  headcount : Nat
  status : Status
  window_seconds : Nat
  neighbors : List NeighborEntry
deriving DecidableEq

/-- Constant `windowSeconds = 60` of line 194. -/
def windowSeconds : Nat := 60

/-- The per-participant arrow function of `allDeviceIds.map(...)`
(lines 264-279): current and previous distinct counts and the clamped
linear extrapolation. -/
def makeEntry (st : Store) (now : Int) (id : Nat) : NeighborEntry :=
  let curr := distinctCount st id now windowSeconds 0
  let prev := distinctCount st id now (windowSeconds * 2) windowSeconds
  { device_id := id, current := curr, previous := prev, predicted := predictedFor curr prev }

/-- Steps 1-3 of the ingest handler: hash the batch, ensure
`tracked_devices` rows, then append one `device_observations` row per
looked-up id (lines 152-191). -/
def ingestObsStore (st : Store) (dev : Nat) (macs : List String) (now : Int) : Store :=
  let macHashes := macs.map hashMac
  let s1 := insertTrackedBulk st macHashes
  { s1 with obs := s1.obs ++ (lookupTrackedIds s1 macHashes).map (fun tid => ⟨tid, dev, now⟩) }

/-- Step 4: the current headcount read back within the same transaction
(lines 193-199). -/
def ingestHeadcount (st : Store) (dev : Nat) (macs : List String) (now : Int) : Nat :=
  distinctCount (ingestObsStore st dev macs now) dev now windowSeconds 0

/-- Step 5: classify the fresh headcount against the device's threshold
row (lines 201-203). -/
def ingestStatus (st : Store) (dev : Nat) (th : Threshold) (macs : List String) (now : Int) :
    Status :=
  getStatus (ingestHeadcount st dev macs now : Int) (some th)

/-- Step 7: append an `alerts` row exactly when the guard of line 210
holds (lines 209-216; webhook dispatch is fire-and-forget and leaves no
modelled state). -/
def ingestFinalStore (st : Store) (dev : Nat) (th : Threshold) (macs : List String) (now : Int) :
    Store :=
  if alertCondition (ingestStatus st dev th macs now) then
    { ingestObsStore st dev macs now with
      alerts := (ingestObsStore st dev macs now).alerts
        ++ [⟨dev, ingestStatus st dev th macs now⟩] }
  else ingestObsStore st dev macs now

/-- The whole `POST /crowd_data/:uniq_url` core (lines 148-289) for a
resolved device and threshold row: final store plus response, with the
participant list `allDeviceIds = [thisDevice.id, ...neighborIds]` of
line 243. -/
def ingest (st : Store) (dev : Nat) (th : Threshold) (macs : List String) (now : Int) :
    Store × IngestResponse :=
  let s3 := ingestFinalStore st dev th macs now
  (s3,
   { headcount := ingestHeadcount st dev macs now,
     status := ingestStatus st dev th macs now,
     window_seconds := windowSeconds,
     neighbors := (dev :: neighborIdsOf s3 dev).map (makeEntry s3 now) })

/-! ## Spec-side definitions -/

/-- Spec-side classifier, written from the specification's words (§4.4):
highest applicable threshold wins, evaluated top-down with inclusive
comparisons, over the three resolved breakpoints the policy actually
consults (`safe` is the fallback band). -/
def classifySpec (headcount danger warning normal : Int) : Status :=
  if danger ≤ headcount then .danger
  else if warning ≤ headcount then .warning
  else if normal ≤ headcount then .normal
  else .safe

/-! ## Claim theorems -/

/-- C1: for every headcount and every threshold configuration (four
breakpoints), `getStatus` evaluates top-down with inclusive comparisons
(danger, then warning, then normal, else safe), and whenever
`danger ≤ headcount` it returns danger regardless of the relative order
of the other breakpoints. -/
theorem getStatus_topdown_danger_dominance (hc sv nv wv dv : Int) :
    getStatus hc (some ⟨some sv, none, some nv, some wv, some dv⟩) = classifySpec hc dv wv nv ∧
    (dv ≤ hc → getStatus hc (some ⟨some sv, none, some nv, some wv, some dv⟩) = .danger) := by
  constructor
  · simp [getStatus, classifySpec, ge_iff_le]
  · intro h
    simp [getStatus, ge_iff_le, h]

/-- Witness for C1 at a concrete input with `danger ≤ headcount`. -/
theorem getStatus_topdown_danger_dominance_witness :
    (120 : Int) ≤ 200 ∧
      getStatus 200 (some ⟨some 30, none, some 50, some 80, some 120⟩) = .danger :=
  ⟨by decide, (getStatus_topdown_danger_dominance 200 30 50 80 120).2 (by decide)⟩

/-- C4: the predicted value equals `max 0 (curr + (curr - prev))`, is
never negative, and in particular `curr = 0, prev = 100` yields 0. -/
theorem predictedFor_clamped_nonneg (curr prev : Nat) :
    predictedFor curr prev = max 0 ((curr : Int) + ((curr : Int) - (prev : Int))) ∧
    0 ≤ predictedFor curr prev ∧
    predictedFor 0 100 = 0 := by
  refine ⟨?_, ?_, by decide⟩ <;>
    · simp only [predictedFor, clampPrediction]
      split <;> omega

/-- C5: on two empty input lists, `analyzeMobility` returns
`jaccard = 1` and `mobility = 0` (with empty intersection and union),
not a failure or an undefined 0/0 value. -/
theorem analyzeMobility_empty_empty :
    (analyzeMobility [] []).jaccard = 1 ∧ (analyzeMobility [] []).mobility = 0 ∧
    (analyzeMobility [] []).intersection = ∅ ∧ (analyzeMobility [] []).union = ∅ := by
  refine ⟨?_, ?_, ?_, ?_⟩ <;> decide

/-- C6: `analyzeMobility` is symmetric in its two arguments for both the
jaccard and the mobility values, and mobility always equals
`1 - jaccard`. -/
theorem analyzeMobility_symm_mobility (a b : List String) :
    (analyzeMobility a b).jaccard = (analyzeMobility b a).jaccard ∧
    (analyzeMobility a b).mobility = (analyzeMobility b a).mobility ∧
    (analyzeMobility a b).mobility = 1 - (analyzeMobility a b).jaccard := by
  have e1 : b.toFinset ∪ a.toFinset = a.toFinset ∪ b.toFinset := Finset.union_comm _ _
  have e2 : Finset.filter (fun x => x ∈ a.toFinset) b.toFinset
      = Finset.filter (fun x => x ∈ b.toFinset) a.toFinset := by
    ext x
    simp [Finset.mem_filter, and_comm]
  refine ⟨?_, ?_, ?_⟩
  · simp only [analyzeMobility, e1, e2]
  · simp only [analyzeMobility, e1, e2]
  · simp only [analyzeMobility]
    split
    · norm_num
    · rfl

/-- C10: `getStatus` is total over arbitrary threshold records: it always
returns one of the four labels, an absent record behaves like the empty
record, the empty record classifies against the fixed defaults
(danger 120, warning 80, normal 50, with safe the fallback band; the
resolved default safe = 30 is never consulted), and in general each
missing breakpoint is substituted by its fixed default. -/
theorem getStatus_total_defaults (hc : Int) (th : Option Threshold) (t : Threshold) :
    (getStatus hc th = .safe ∨ getStatus hc th = .normal ∨ getStatus hc th = .warning ∨
      getStatus hc th = .danger) ∧
    getStatus hc none = getStatus hc (some {}) ∧
    getStatus hc (some {}) = classifySpec hc 120 80 50 ∧
    getStatus hc (some {}) = getStatus hc (some ⟨some 30, none, some 50, some 80, some 120⟩) ∧
    getStatus hc (some t)
      = classifySpec hc ((t.danger).getD 120) ((t.warning).getD 80) ((t.normal).getD 50) := by
  refine ⟨?_, ?_, ?_, ?_, ?_⟩
  · cases hg : getStatus hc th <;> simp
  · rfl
  · simp [getStatus, classifySpec, ge_iff_le]
  · simp [getStatus]
  · simp [getStatus, classifySpec, ge_iff_le]

/-- C7 counterexample: the redactor does not fail on the empty string; it
returns the SHA-256 digest of the empty byte string. -/
theorem hashMac_empty_returns_token_cex :
    hashMac "" = 0xe3b0c44298fc1c149afbf4c8996fb92427ae41e4649b934ca495991b7852b855 := by
  decide

/-- Every digest read-out is a 256-bit value. -/
theorem digestNat_lt (st : Hash8) : digestNat st < 2 ^ 256 := by
  unfold digestNat M32
  omega

/-- C7 (amended): `hashMac` is a deterministic function of the raw
identifier string and is total: every input, the empty string included,
yields a 256-bit token; no input is rejected. -/
theorem hashMac_total_deterministic (s t : String) :
    hashMac s < 2 ^ 256 ∧ (s = t → hashMac s = hashMac t) := by
  refine ⟨?_, fun h => by rw [h]⟩
  unfold hashMac sha256Bytes
  exact digestNat_lt _

/-- Witness for C7 (amended) at the empty string. -/
theorem hashMac_total_deterministic_witness :
    hashMac "" < 2 ^ 256 ∧ hashMac "" = hashMac "" :=
  ⟨(hashMac_total_deterministic "" "").1, (hashMac_total_deterministic "" "").2 rfl⟩

/-- C2 counterexample: a token observed exactly at the window boundary
`now - w` (here `now = 100`, `w = windowSeconds = 60`, sighting at 40) is
counted in the current window and not in the previous one — the opposite
of the claim's assignment. -/
theorem boundary_token_in_current_cex :
    distinctCount ⟨[⟨1, 0⟩], [⟨1, 1, 40⟩], [], [], 2⟩ 1 100 windowSeconds 0 = 1 ∧
    distinctCount ⟨[⟨1, 0⟩], [⟨1, 1, 40⟩], [], [], 2⟩ 1 100 (windowSeconds * 2) windowSeconds
      = 0 := by
  decide

/-- C2 (amended): the current and previous windows are disjoint, a token
sighting at exactly `now - w` falls in the current window and not the
previous one, and every sighting from `now - 2w` on falls in at least
one of the two windows — so a boundary sighting is counted in exactly
one window, the current one. -/
theorem windows_disjoint_boundary_current (now : Int) (w : Nat) (t : Int) (hw : 0 < w) :
    (¬(windowPred now w 0 t = true ∧ windowPred now (w * 2) w t = true)) ∧
    windowPred now w 0 (now - (w : Int)) = true ∧
    windowPred now (w * 2) w (now - (w : Int)) = false ∧
    (now - ((w : Int) * 2) ≤ t →
      windowPred now w 0 t = true ∨ windowPred now (w * 2) w t = true) := by
  refine ⟨?_, ?_, ?_, ?_⟩ <;> simp [windowPred, hw] <;> omega

/-- Witness for C2 (amended) at `now = 100`, `w = windowSeconds`,
`t = 40`. -/
theorem windows_disjoint_boundary_current_witness :
    0 < windowSeconds ∧
    ((¬(windowPred 100 windowSeconds 0 40 = true ∧
        windowPred 100 (windowSeconds * 2) windowSeconds 40 = true)) ∧
      windowPred 100 windowSeconds 0 (100 - (windowSeconds : Int)) = true ∧
      windowPred 100 (windowSeconds * 2) windowSeconds (100 - (windowSeconds : Int)) = false ∧
      (100 - ((windowSeconds : Int) * 2) ≤ 40 →
        windowPred 100 windowSeconds 0 40 = true ∨
          windowPred 100 (windowSeconds * 2) windowSeconds 40 = true)) :=
  ⟨by decide, windows_disjoint_boundary_current 100 windowSeconds 40 (by decide)⟩

/-! ## Store lemmas -/

/-- Unfolding of the bulk insert over a cons cell. -/
theorem insertTrackedBulk_cons (st : Store) (hh : Nat) (tt : List Nat) :
    insertTrackedBulk st (hh :: tt) = insertTrackedBulk (insertTracked st hh) tt := rfl

/-- Lemma: `insertTracked` never touches the alerts table. -/
theorem insertTracked_alerts (st : Store) (hh : Nat) :
    (insertTracked st hh).alerts = st.alerts := by
  unfold insertTracked
  split <;> rfl

/-- The bulk insert never touches the alerts table. -/
theorem insertTrackedBulk_alerts (hashes : List Nat) (st : Store) :
    (insertTrackedBulk st hashes).alerts = st.alerts := by
  induction hashes generalizing st with
  | nil => rfl
  | cons hh tt ih =>
    rw [insertTrackedBulk_cons, ih, insertTracked_alerts]

/-- Lemma: `insertTracked` never touches the neighbor table. -/
theorem insertTracked_neighbors (st : Store) (hh : Nat) :
    (insertTracked st hh).neighbors = st.neighbors := by
  unfold insertTracked
  split <;> rfl

/-- The bulk insert never touches the neighbor table. -/
theorem insertTrackedBulk_neighbors (hashes : List Nat) (st : Store) :
    (insertTrackedBulk st hashes).neighbors = st.neighbors := by
  induction hashes generalizing st with
  | nil => rfl
  | cons hh tt ih =>
    rw [insertTrackedBulk_cons, ih, insertTracked_neighbors]

/-- Lemma: `insertTracked` keeps every existing tracked row. -/
theorem insertTracked_tracked_sub (st : Store) (hh : Nat) (r : TrackedRow)
    (hr : r ∈ st.tracked) : r ∈ (insertTracked st hh).tracked := by
  unfold insertTracked
  split
  · exact hr
  · exact List.mem_append_left _ hr

/-- The bulk insert keeps every existing tracked row. -/
theorem insertTrackedBulk_tracked_sub (hashes : List Nat) (st : Store) (r : TrackedRow)
    (hr : r ∈ st.tracked) : r ∈ (insertTrackedBulk st hashes).tracked := by
  induction hashes generalizing st with
  | nil => exact hr
  | cons hh tt ih =>
    rw [insertTrackedBulk_cons]
    exact ih _ (insertTracked_tracked_sub _ _ _ hr)

/-- After `insertTracked st hh`, some tracked row carries hash `hh`. -/
theorem insertTracked_contains_self (st : Store) (hh : Nat) :
    ∃ r ∈ (insertTracked st hh).tracked, r.macHash = hh := by
  unfold insertTracked
  split
  · next hcond =>
    rw [List.any_eq_true] at hcond
    obtain ⟨r, hr, hbeq⟩ := hcond
    exact ⟨r, hr, by simpa using hbeq⟩
  · exact ⟨⟨st.nextTrackedId, hh⟩, List.mem_append_right _ (List.mem_singleton.mpr rfl), rfl⟩

/-- After the bulk insert of a batch, every hash of the batch has a
tracked row. -/
theorem insertTrackedBulk_contains (hashes : List Nat) (st : Store) (hh : Nat)
    (hmem : hh ∈ hashes) : ∃ r ∈ (insertTrackedBulk st hashes).tracked, r.macHash = hh := by
  induction hashes generalizing st with
  | nil => cases hmem
  | cons x tt ih =>
    rw [insertTrackedBulk_cons]
    rcases List.mem_cons.mp hmem with hx | hx
    · subst hx
      obtain ⟨r, hr, hrh⟩ := insertTracked_contains_self st hh
      exact ⟨r, insertTrackedBulk_tracked_sub _ _ _ hr, hrh⟩
    · exact ih _ hx

/-- A hash held by some tracked row is found by the `SELECT ... WHERE
mac_hash = ?` lookup. -/
theorem tracked_find_of_contains {st : Store} {hh : Nat}
    (hc : ∃ r ∈ st.tracked, r.macHash = hh) :
    ∃ r, st.tracked.find? (fun row => row.macHash == hh) = some r ∧ r.macHash = hh := by
  obtain ⟨r, hr, hrh⟩ := hc
  have hsome : (st.tracked.find? (fun row => row.macHash == hh)).isSome := by
    rw [List.find?_isSome]
    exact ⟨r, hr, by simpa using hrh⟩
  obtain ⟨r', hr'⟩ := Option.isSome_iff_exists.mp hsome
  refine ⟨r', hr', ?_⟩
  simpa using List.find?_some hr'

/-- The final store of an ingestion keeps the tracked table produced by
the bulk insert. -/
theorem ingest_tracked (st : Store) (dev : Nat) (th : Threshold) (macs : List String)
    (now : Int) :
    (ingest st dev th macs now).1.tracked = (insertTrackedBulk st (macs.map hashMac)).tracked := by
  show (ingestFinalStore st dev th macs now).tracked = _
  unfold ingestFinalStore
  split <;> rfl

/-- The final store of an ingestion keeps the observation rows written in
step 3. -/
theorem ingest_obs (st : Store) (dev : Nat) (th : Threshold) (macs : List String) (now : Int) :
    (ingest st dev th macs now).1.obs = (ingestObsStore st dev macs now).obs := by
  show (ingestFinalStore st dev th macs now).obs = _
  unfold ingestFinalStore
  split <;> rfl

/-- The final store of an ingestion keeps the neighbor table unchanged. -/
theorem ingest_neighbors (st : Store) (dev : Nat) (th : Threshold) (macs : List String)
    (now : Int) : (ingest st dev th macs now).1.neighbors = st.neighbors := by
  have hob : (ingestObsStore st dev macs now).neighbors = st.neighbors := by
    show ({ insertTrackedBulk st (macs.map hashMac) with obs := _ } : Store).neighbors
      = st.neighbors
    exact insertTrackedBulk_neighbors _ _
  show (ingestFinalStore st dev th macs now).neighbors = _
  unfold ingestFinalStore
  split <;> exact hob

/-- C9: during ingestion, an alert row is appended if and only if the
computed severity satisfies the guard, the guard holds exactly for
warning and danger, and the append happens for every qualifying event
regardless of any alerts already present (no suppression). -/
theorem alert_iff_warning_or_danger (st : Store) (dev : Nat) (th : Threshold)
    (macs : List String) (now : Int) :
    (ingest st dev th macs now).1.alerts =
      st.alerts ++ (if alertCondition ((ingest st dev th macs now).2.status) then
        [⟨dev, (ingest st dev th macs now).2.status⟩] else []) ∧
    (∀ s : Status, alertCondition s = true ↔ (s = .warning ∨ s = .danger)) := by
  constructor
  · have hob : (ingestObsStore st dev macs now).alerts = st.alerts := by
      show ({ insertTrackedBulk st (macs.map hashMac) with
              obs := _ } : Store).alerts = st.alerts
      exact insertTrackedBulk_alerts _ _
    have hst : (ingest st dev th macs now).2.status = ingestStatus st dev th macs now := rfl
    rw [hst]
    show (ingestFinalStore st dev th macs now).alerts = _
    unfold ingestFinalStore
    split <;> simp_all
  · intro s
    cases s <;> decide

/-- The participant id of a response entry is the id it was built from. -/
theorem makeEntry_device_id (st : Store) (now : Int) (id : Nat) :
    (makeEntry st now id).device_id = id := rfl

/-- C8 counterexample: a sensor that declares itself as its own neighbor
(`device_neighbors` row `(1, 1)`) gets two entries for participant 1 in
the prediction response, not one. -/
theorem selfloop_participant_twice_cex :
    (((ingest ⟨[], [], [], [(1, 1)], 0⟩ 1 ⟨none, none, none, none, none⟩ ["aa"] 0).2.neighbors.filter
        (fun e => e.device_id == 1)).length = 2) ∧
    ¬(((ingest ⟨[], [], [], [(1, 1)], 0⟩ 1 ⟨none, none, none, none, none⟩ ["aa"] 0).2.neighbors.filter
        (fun e => e.device_id == 1)).length = 1) := by
  constructor <;> decide

/-- C8 (amended): the participant list of the prediction response is
`[sensor] ++ declared neighbors` exactly as stored, with duplicates NOT
removed — one entry per occurrence, so a self-loop neighbor row makes the
sensor appear twice. -/
theorem ingest_participants_no_dedup (st : Store) (dev : Nat) (th : Threshold)
    (macs : List String) (now : Int) :
    ((ingest st dev th macs now).2.neighbors.map (fun e => e.device_id))
      = dev :: neighborIdsOf st dev ∧
    (ingest st dev th macs now).2.neighbors.length = 1 + (neighborIdsOf st dev).length := by
  have hn : neighborIdsOf (ingestFinalStore st dev th macs now) dev = neighborIdsOf st dev := by
    unfold neighborIdsOf
    rw [show (ingestFinalStore st dev th macs now).neighbors = st.neighbors from
      ingest_neighbors st dev th macs now]
  have hresp : (ingest st dev th macs now).2.neighbors
      = (dev :: neighborIdsOf (ingestFinalStore st dev th macs now) dev).map
          (makeEntry (ingestFinalStore st dev th macs now) now) := rfl
  rw [hresp, hn]
  constructor
  · rw [List.map_map]
    simp [Function.comp_def, makeEntry_device_id]
  · simp [Nat.add_comm]

/-- C3: when a batch contains the same raw identifier more than once, the
distinct-presence count of the window receiving the ingestion counts the
corresponding token exactly once: its tracked id occurs exactly once in
the deduplicated window token list. -/
theorem ingest_duplicate_mac_counted_once (st : Store) (dev : Nat) (th : Threshold)
    (macs : List String) (now : Int) (m : String) (hdup : 1 < macs.count m) :
    ∃ r, (ingest st dev th macs now).1.tracked.find? (fun row => row.macHash == hashMac m)
          = some r ∧
      (windowTokenIds (ingest st dev th macs now).1 dev now windowSeconds 0).count r.id = 1 := by
  have hmem : m ∈ macs := by
    have : 0 < macs.count m := by omega
    exact List.count_pos_iff.mp this
  have hhash : hashMac m ∈ macs.map hashMac := List.mem_map_of_mem _ hmem
  obtain ⟨r, hfind, hrh⟩ := tracked_find_of_contains
    (insertTrackedBulk_contains (macs.map hashMac) st (hashMac m) hhash)
  refine ⟨r, by rw [ingest_tracked]; exact hfind, ?_⟩
  have hid : r.id ∈ lookupTrackedIds (insertTrackedBulk st (macs.map hashMac))
      (macs.map hashMac) := by
    rw [lookupTrackedIds, List.mem_filterMap]
    exact ⟨hashMac m, hhash, by rw [hfind]; rfl⟩
  have hobs : (⟨r.id, dev, now⟩ : ObsRow) ∈ (ingest st dev th macs now).1.obs := by
    rw [ingest_obs]
    show _ ∈ (insertTrackedBulk st (macs.map hashMac)).obs ++ _
    exact List.mem_append_right _ (List.mem_map_of_mem _ hid)
  have hmemtok : r.id ∈ windowTokenIds (ingest st dev th macs now).1 dev now windowSeconds 0 := by
    rw [windowTokenIds, List.mem_dedup]
    refine List.mem_map.mpr ⟨⟨r.id, dev, now⟩, ?_, rfl⟩
    rw [List.mem_filter]
    refine ⟨hobs, ?_⟩
    simp [windowPred, windowSeconds]
  have hnd : (windowTokenIds (ingest st dev th macs now).1 dev now windowSeconds 0).Nodup := by
    rw [windowTokenIds]
    exact List.nodup_dedup _
  exact List.count_eq_one_of_mem hnd hmemtok

/-- Witness for C3: the batch `["aa", "aa"]` contains `"aa"` twice and
its token is counted once. -/
theorem ingest_duplicate_mac_counted_once_witness :
    1 < (["aa", "aa"] : List String).count "aa" ∧
    ∃ r, (ingest ⟨[], [], [], [], 0⟩ 1 ⟨none, none, none, none, none⟩
            ["aa", "aa"] 0).1.tracked.find? (fun row => row.macHash == hashMac "aa") = some r ∧
      (windowTokenIds (ingest ⟨[], [], [], [], 0⟩ 1 ⟨none, none, none, none, none⟩
          ["aa", "aa"] 0).1 1 0 windowSeconds 0).count r.id = 1 :=
  ⟨by decide, ingest_duplicate_mac_counted_once ⟨[], [], [], [], 0⟩ 1
    ⟨none, none, none, none, none⟩ ["aa", "aa"] 0 "aa" (by decide)⟩

end CrowdServer
